import Mathlib

/-!
Verification of the training orchestration core of `src/trainer.py`
(tiny-attention-networks).

The trainer is embedded shallowly:

* `trainLoop` models `train_loop` (trainer.py lines 89-232) as a pure state
  machine.  Data loaders are an association list from dataset name to an
  association list from split name to batch count; side effects (prints,
  metric logs, similarity evaluation, checkpoint writes) are recorded as an
  `Event` trace; Python exceptions (`KeyError`, `ZeroDivisionError`) become
  `Except.error`.  Loss values do not influence control flow, so they are not
  tracked; the scores returned by `evaluate` do (they drive checkpointing)
  and are supplied by the oracle field `evalScores`.
* `cosine_sim` and `similarities` model `cosine_sim` (lines 16-21) and the
  diagonal extraction in `evaluate` (line 51) over real matrices.
* `linearWarmupLambda` / `setup_scheduler` model `setup_scheduler`
  (lines 69-72) together with the `lr_lambda` of the library function
  `transformers.get_linear_schedule_with_warmup` it delegates to.
* `train_worker` models the teardown control flow of `train_worker`
  (lines 260-318).
* `batchOps` models the per-batch mixed-precision protocol (lines 157-170).
* `avgTrainLoss` / `avgValLoss` model the averaging formulas
  (lines 181 and 194).
-/

/-- Observable side effects of `train_loop`, in program order.
`printEpoch`/`printBlank` are the epoch banner prints (lines 122-123, 229-230);
`logTrainLoss` is the per-batch metric write (lines 172-179); `printTrainVal`
and `logValLoss` are the validation branch (lines 196-203); `printNoVal` is the
no-validation message (lines 204-209); `evalDone` records a call to `evaluate`
together with the combined score `(pearson + spearman) / 2` (lines 214-220);
`logPearson`/`logSpearman` are lines 217-218; `saveModel` is the checkpoint
write of `save_best_model` (lines 222-227). -/
inductive Event where
  | printEpoch (epoch : Nat)
  | logTrainLoss (dataset : String) (step : Nat)
  | printTrainVal (dataset : String)
  | logValLoss (dataset : String) (step : Nat)
  | printNoVal (dataset : String)
  | evalDone (dataset : String) (score : ℚ)
  | logPearson (dataset : String) (step : Nat)
  | logSpearman (dataset : String) (step : Nat)
  | saveModel (score : ℚ)
  | printBlank
deriving DecidableEq, Repr

/-- A dataset's splits: association list from split name to batch count
(`len(data_loader)`). -/
abbrev Splits := List (String × Nat)

/-- Embeds `data.data_loaders`: association list from dataset name to its splits. -/
abbrev Loaders := List (String × Splits)

/-- The inputs `train_loop` reads: the experiment fields it uses
(lines 100-103), the rank/writer gating inputs, and an oracle giving the
`(pearson, spearman)` result of the k-th call to `evaluate`. -/
structure TrainEnv where
  dataLoaders : Loaders
  trainDatasets : List String
  numEpochs : Nat
  warmupSteps : Nat
  rank : Nat
  hasWriter : Bool
  evalScores : Nat → ℚ × ℚ

/-- The mutable state of `train_loop`: the global step counter (line 118), the
best-score tracker (line 119, `none` encodes `-float("inf")`), the number of
`evaluate` calls made so far (to index the oracle), and the emitted events. -/
structure LoopState where
  globalStep : Nat
  best : Option ℚ
  evalCount : Nat
  events : List Event
deriving DecidableEq, Repr

/-- Initial state of `train_loop` (lines 118-119). -/
def initState : LoopState :=
  { globalStep := 0, best := none, evalCount := 0, events := [] }

/-- Does `needle` occur as a contiguous sublist of `hay`? -/
def containsSub (needle : List Char) : List Char → Bool
  | [] => needle.isEmpty
  | c :: rest => List.isPrefixOf needle (c :: rest) || containsSub needle rest

/-- Embeds `"validation" in key` (line 136): substring test on split names. -/
def hasValidationKey (key : String) : Bool :=
  containsSub "validation".toList key.toList

/-- Embeds `current_stsb_score > best_stsb_score` (line 222) where `none` encodes the
initial `-float("inf")`. -/
def ltBest : Option ℚ → ℚ → Bool
  | none, _ => true
  | some b, s => decide (b < s)

/-- The per-batch `log_metrics(..., "train_loss", ..., global_step)` events of
the batch loop (lines 157-179): the step counter is incremented before the
gated metric write, so batch `i` (0-based) logs at step `startStep + i + 1`. -/
def trainLossLogs (gate : Bool) (dataset : String) (startStep : Nat) : Nat → List Event
  | 0 => []
  | n + 1 =>
    (if gate then [Event.logTrainLoss dataset (startStep + 1)] else []) ++
      trainLossLogs gate dataset (startStep + 1) n

/-- The batch loop over a train loader with `n` batches (lines 157-179):
`global_step` increases by one per batch and the per-batch metric write is
gated on `writer and rank == 0`. -/
def batchLoop (env : TrainEnv) (dataset : String) (n : Nat) (s : LoopState) : LoopState :=
  { s with
    globalStep := s.globalStep + n
    events := s.events ++
      trainLossLogs (env.hasWriter && env.rank == 0) dataset s.globalStep n }

/-- The evaluation/checkpoint block (lines 211-227): gated on
`writer and rank == 0`; calls `evaluate`, logs both correlations at the current
global step, forms the combined score `(results[0] + results[1]) / 2`, and
saves the model iff the score is strictly greater than the best so far. -/
def evalAndCheckpoint (env : TrainEnv) (dataset : String) (s : LoopState) : LoopState :=
  if env.hasWriter && env.rank == 0 then
    let p := (env.evalScores s.evalCount).1
    let sp := (env.evalScores s.evalCount).2
    let score := (p + sp) / 2
    let s1 : LoopState :=
      { s with
        evalCount := s.evalCount + 1
        events := s.events ++
          [Event.evalDone dataset score, Event.logPearson dataset s.globalStep,
            Event.logSpearman dataset s.globalStep] }
    if ltBest s1.best score then
      { s1 with best := some score, events := s1.events ++ [Event.saveModel score] }
    else s1
  else s

/-- One dataset-epoch (lines 125-227).  `data.data_loaders[dataset_name]`
raises `KeyError` if the dataset is absent (line 128/135); the `"train"` split
lookup raises `KeyError` if absent (line 128); after the batch loop,
`total_train_loss / len(train_loader)` raises `ZeroDivisionError` when the
loader has zero batches (line 181).  The validation branch (lines 183-209)
emits its messages, and lines 211-227 run the evaluation/checkpoint block
unconditionally (subject only to the writer/rank gate). -/
def processDataset (env : TrainEnv) (dataset : String) (s : LoopState) :
    Except String LoopState :=
  match List.lookup dataset env.dataLoaders with
  | none => Except.error ("KeyError: " ++ dataset)
  | some splits =>
    match List.lookup "train" splits with
    | none => Except.error ("KeyError: train split of " ++ dataset)
    | some n =>
      let valKeys := (splits.map Prod.fst).filter hasValidationKey
      let s1 := batchLoop env dataset n s
      if n == 0 then Except.error "ZeroDivisionError: float division by zero"
      else
        let s2 :=
          match valKeys with
          | [] =>
            if env.hasWriter && env.rank == 0 then
              { s1 with events := s1.events ++ [Event.printNoVal dataset] }
            else s1
          | _ :: _ =>
            if env.hasWriter && env.rank == 0 then
              { s1 with events := s1.events ++
                  [Event.printTrainVal dataset, Event.logValLoss dataset s1.globalStep] }
            else s1
        Except.ok (evalAndCheckpoint env dataset s2)

/-- The inner `for dataset_name in dataset_names` loop (line 125). -/
def foldDatasets (env : TrainEnv) : List String → LoopState → Except String LoopState
  | [], s => Except.ok s
  | d :: rest, s => (processDataset env d s).bind (foldDatasets env rest)

/-- One epoch (lines 121-230): the epoch banner print (rank 0 only), the
dataset loop, then the trailing blank print (rank 0 only). -/
def runEpoch (env : TrainEnv) (epoch : Nat) (s : LoopState) : Except String LoopState :=
  let s0 :=
    if env.rank == 0 then { s with events := s.events ++ [Event.printEpoch epoch] } else s
  (foldDatasets env env.trainDatasets s0).map fun s1 =>
    if env.rank == 0 then { s1 with events := s1.events ++ [Event.printBlank] } else s1

/-- The `for epoch in range(num_epochs)` loop, running epochs
`epoch, epoch+1, …` while `remaining` counts down. -/
def runEpochs (env : TrainEnv) : Nat → Nat → LoopState → Except String LoopState
  | _, 0, s => Except.ok s
  | epoch, r + 1, s => (runEpoch env epoch s).bind (runEpochs env (epoch + 1) r)

/-- Embeds `total_steps_per_epoch` (lines 108-112): sum of train-loader lengths over
the listed datasets, skipping a dataset whose splits lack `"train"`; accessing
a dataset name absent from `data_loaders` raises `KeyError`. -/
def goTotalSteps (loaders : Loaders) : List String → Except String Nat
  | [] => Except.ok 0
  | d :: rest =>
    match List.lookup d loaders with
    | none => Except.error ("KeyError: " ++ d)
    | some splits =>
      (goTotalSteps loaders rest).map fun acc =>
        match List.lookup "train" splits with
        | some n => n + acc
        | none => acc

/-- Embeds `total_steps = total_steps_per_epoch * num_epochs` (line 113): the value
handed to `setup_scheduler` (line 115). -/
def plannerTotalSteps (env : TrainEnv) : Except String Nat :=
  (goTotalSteps env.dataLoaders env.trainDatasets).map (· * env.numEpochs)

/-- The `lr_lambda` of `transformers.get_linear_schedule_with_warmup`, the
library function `setup_scheduler` (lines 69-72) returns:
`current_step / max(1, warmup)` during warmup, else
`max(0.0, (total - current_step) / max(1, total - warmup))`.  The subtractions
are Python `int` subtractions, hence over ℤ.  The function body validates
nothing and raises no error. -/
def linearWarmupLambda (warmup total step : Nat) : ℚ :=
  if step < warmup then (step : ℚ) / ((max 1 warmup : Nat) : ℚ)
  else max 0 ((((total : ℤ) : ℚ) - ((step : ℤ) : ℚ)) / ((max 1 ((total : ℤ) - (warmup : ℤ)) : ℤ) : ℚ))

/-- Embeds `setup_scheduler` (lines 69-72).  It only delegates to
`get_linear_schedule_with_warmup`, whose body performs no validation, so no
input can fail; the `Except` codomain makes the absence of a raised error
statable. -/
def setup_scheduler (warmup total : Nat) : Except String (Nat → ℚ) :=
  Except.ok (linearWarmupLambda warmup total)

/-- Embeds `train_loop` (lines 89-232): compute the planner's total-step budget
(lines 108-113, which can raise `KeyError`), build the schedule (line 115),
then run the epoch loop from the initial state. -/
def trainLoop (env : TrainEnv) : Except String LoopState :=
  (plannerTotalSteps env).bind fun total =>
    (setup_scheduler env.warmupSteps total).bind fun _ =>
      runEpochs env 0 env.numEpochs initState

/-- Combined scores of the `evaluate` calls recorded in a trace, in order. -/
def scoresOfEvals (l : List Event) : List ℚ :=
  l.filterMap fun e =>
    match e with
    | Event.evalDone _ q => some q
    | _ => none

/-- Scores at which a checkpoint write happened, in order. -/
def scoresOfSaves (l : List Event) : List ℚ :=
  l.filterMap fun e =>
    match e with
    | Event.saveModel q => some q
    | _ => none

/-- The best-so-far tracker after folding a score sequence, starting from `b`
(`none` encodes `-float("inf")`): updated exactly on strict improvement. -/
def lastBest (b : Option ℚ) : List ℚ → Option ℚ
  | [] => b
  | q :: rest => lastBest (if ltBest b q then some q else b) rest

/-- The subsequence of scores that strictly exceed every earlier score
(starting from `b`): exactly the scores at which line 222's guard fires. -/
def recordBreakers (b : Option ℚ) : List ℚ → List ℚ
  | [] => []
  | q :: rest =>
    if ltBest b q then q :: recordBreakers (some q) rest
    else recordBreakers b rest

/-- The events a trace gained over a prefix. -/
def eventsAdded (old new : List Event) : List Event :=
  new.drop old.length

/-- Is an event a similarity-evaluation call? -/
def isEvalEvent : Event → Bool
  | Event.evalDone _ _ => true
  | _ => false

/-- Is an event a checkpoint write? -/
def isSaveEvent : Event → Bool
  | Event.saveModel _ => true
  | _ => false

/-- Is an event the validation-loss metric write? -/
def isValLossEvent : Event → Bool
  | Event.logValLoss _ _ => true
  | _ => false

/-- Is an event the no-validation-data message? -/
def isNoValMsg : Event → Bool
  | Event.printNoVal _ => true
  | _ => false

/-- Is an event the train-with-validation loss message? -/
def isTrainValMsg : Event → Bool
  | Event.printTrainVal _ => true
  | _ => false

/-- Embeds `cosine_sim` (lines 16-21) over exact reals: an `m × k` matrix `a` and an
`n × k` matrix `b` give the `m × n` matrix of `einsum("ij,kj->ik")` row dot
products divided by the outer product (`einsum("i,j->ij")`) of the row norms
`sqrt(einsum("ij,ij->i"))`. -/
noncomputable def cosine_sim {m n k : ℕ} (a : Fin m → Fin k → ℝ) (b : Fin n → Fin k → ℝ) :
    Fin m → Fin n → ℝ :=
  let dot_product : Fin m → Fin n → ℝ := fun i j => ∑ l, a i l * b j l
  let norm_a : Fin m → ℝ := fun i => Real.sqrt (∑ l, a i l * a i l)
  let norm_b : Fin n → ℝ := fun j => Real.sqrt (∑ l, b j l * b j l)
  let norm_product : Fin m → Fin n → ℝ := fun i j => norm_a i * norm_b j
  fun i j => dot_product i j / norm_product i j

/-- The similarity vector the evaluator uses (line 51):
`cosine_sim(vectors_one, vectors_two).diagonal()`. -/
noncomputable def similarities {m k : ℕ} (v₁ v₂ : Fin m → Fin k → ℝ) : Fin m → ℝ :=
  fun i => cosine_sim v₁ v₂ i i

/-- The calls the batch body makes, in order (lines 157-170).  `scalerStep`
carries whether the dynamic scaler skipped the optimizer step because a
gradient overflowed (internal to `GradScaler.step`). -/
inductive StepOp where
  | zeroGrad
  | forwardAutocast
  | scaleLoss
  | backward
  | scalerStep (skipped : Bool)
  | scalerUpdate
  | schedulerStep
deriving DecidableEq, Repr

/-- One iteration of the batch loop (lines 157-170): `optimizer.zero_grad()`;
forward under `torch.autocast`; `scaler.scale(train_loss).backward()` (scale
then backward); `scaler.step(optimizer)`; `scaler.update()`;
`scheduler.step()` — the last unconditionally, whatever the scaler decided. -/
def batchOps (skipped : Bool) : List StepOp :=
  [StepOp.zeroGrad, StepOp.forwardAutocast, StepOp.scaleLoss, StepOp.backward,
    StepOp.scalerStep skipped, StepOp.scalerUpdate, StepOp.schedulerStep]

/-- The batch loop over a whole loader, given for each batch whether the
scaler skipped its optimizer step. -/
def loaderOps (skips : List Bool) : List StepOp :=
  skips.flatMap batchOps

/-- The externally visible calls of `train_worker` (lines 260-318) that the
teardown contract is about: `dist.init_process_group` (line 275), the body up
to and including `train_loop` (lines 276-315), `dist.destroy_process_group`
(line 318). -/
inductive WorkerEvent where
  | initProcessGroup
  | runBody
  | destroyProcessGroup
deriving DecidableEq, Repr

/-- Control flow of `train_worker` (lines 260-318), abstracting the body
(device binding, DDP wrapping, loader resharding, `train_loop`, writer close)
into its outcome: the function has no `try`/`finally`, so
`dist.destroy_process_group()` on line 318 runs only when the body returns
normally; an exception propagates past it.  Returns the trace of calls made
and the propagated error, if any. -/
def train_worker (bodyOutcome : Except String Unit) : List WorkerEvent × Option String :=
  match bodyOutcome with
  | Except.ok _ =>
    ([WorkerEvent.initProcessGroup, WorkerEvent.runBody, WorkerEvent.destroyProcessGroup],
      none)
  | Except.error e => ([WorkerEvent.initProcessGroup, WorkerEvent.runBody], some e)

/-- Embeds `avg_train_loss = total_train_loss / len(train_loader)` (line 181), over
exact rationals. -/
def avgTrainLoss (total : ℚ) (n : ℕ) : ℚ :=
  total / (n : ℚ)

/-- Embeds `avg_val_loss = total_val_loss / (len(val_loader) + 1e-6)` (line 194),
over exact rationals; the literal `1e-6` is modelled as the rational 10⁻⁶. -/
def avgValLoss (total : ℚ) (n : ℕ) : ℚ :=
  total / ((n : ℚ) + 1 / 1000000)

/-- Order on best-tracker values, `none` encoding `-float("inf")`. -/
def leBest : Option ℚ → Option ℚ → Prop
  | none, _ => True
  | some _, none => False
  | some b, some b' => b ≤ b'

/-- Linking invariant of the checkpoint selector: the recorded checkpoint
writes are exactly the strict record-breakers among the recorded evaluation
scores, and the tracker holds the running best of those scores. -/
def SelInv (s : LoopState) : Prop :=
  scoresOfSaves s.events = recordBreakers none (scoresOfEvals s.events) ∧
  s.best = lastBest none (scoresOfEvals s.events)

/-- A two-epoch, one-dataset run on the coordinating rank, with evaluation
scores rising across epochs; used to exhibit concrete executions. -/
def cEnvA : TrainEnv :=
  { dataLoaders := [("d", [("train", 2), ("validation", 1)])]
    trainDatasets := ["d"], numEpochs := 2, warmupSteps := 1, rank := 0
    hasWriter := true, evalScores := fun k => ((k : ℚ), 1) }

/-- The final state of `trainLoop cEnvA`. -/
def cStateA : LoopState :=
  { globalStep := 4, best := some 1, evalCount := 2
    events := [Event.printEpoch 0,
      Event.logTrainLoss "d" 1, Event.logTrainLoss "d" 2,
      Event.printTrainVal "d", Event.logValLoss "d" 2,
      Event.evalDone "d" ((1 : ℚ) / 2), Event.logPearson "d" 2, Event.logSpearman "d" 2,
      Event.saveModel ((1 : ℚ) / 2), Event.printBlank,
      Event.printEpoch 1,
      Event.logTrainLoss "d" 3, Event.logTrainLoss "d" 4,
      Event.printTrainVal "d", Event.logValLoss "d" 4,
      Event.evalDone "d" 1, Event.logPearson "d" 4, Event.logSpearman "d" 4,
      Event.saveModel 1, Event.printBlank] }

/-- The same run as `cEnvA` but executed on a non-coordinating rank (whose
writer is therefore absent, as `initialize_writer` returns `None`). -/
def cEnvB : TrainEnv :=
  { dataLoaders := [("d", [("train", 2), ("validation", 1)])]
    trainDatasets := ["d"], numEpochs := 2, warmupSteps := 1, rank := 1
    hasWriter := false, evalScores := fun k => ((k : ℚ), 1) }

/-- The final state of `trainLoop cEnvB`. -/
def cStateB : LoopState :=
  { globalStep := 4, best := none, evalCount := 0, events := [] }

/-- A one-dataset run where the dataset has no validation-like split. -/
def c1Env : TrainEnv :=
  { dataLoaders := [("plain", [("train", 1), ("test", 3)])]
    trainDatasets := ["plain"], numEpochs := 1, warmupSteps := 0, rank := 0
    hasWriter := true, evalScores := fun _ => (1, 0) }

/-- The state after processing dataset `"plain"` of `c1Env` from the initial
state. -/
def c1State : LoopState :=
  { globalStep := 1, best := some ((1 : ℚ) / 2), evalCount := 1
    events := [Event.logTrainLoss "plain" 1, Event.printNoVal "plain",
      Event.evalDone "plain" ((1 : ℚ) / 2), Event.logPearson "plain" 1,
      Event.logSpearman "plain" 1, Event.saveModel ((1 : ℚ) / 2)] }

/-- The final state of `trainLoop c1Env`. -/
def c1Full : LoopState :=
  { globalStep := 1, best := some ((1 : ℚ) / 2), evalCount := 1
    events := [Event.printEpoch 0, Event.logTrainLoss "plain" 1, Event.printNoVal "plain",
      Event.evalDone "plain" ((1 : ℚ) / 2), Event.logPearson "plain" 1,
      Event.logSpearman "plain" 1, Event.saveModel ((1 : ℚ) / 2), Event.printBlank] }

/-- Loaders exhibiting the two failure modes of claim C9: a dataset with no
`"train"` split and a dataset whose train loader has zero batches. -/
def w9Env : TrainEnv :=
  { dataLoaders := [("noTrain", [("validation", 1)]), ("zeroTrain", [("train", 0)])]
    trainDatasets := ["noTrain", "zeroTrain"], numEpochs := 1, warmupSteps := 0, rank := 0
    hasWriter := true, evalScores := fun _ => (0, 0) }

/-- Claim C6: `cosine_sim` on an `m`-row matrix and an `n`-row matrix of equal
column width is the `m × n` matrix whose `(i, j)` entry is the dot product of
row `i` of `a` and row `j` of `b` divided by the product of their Euclidean
norms, and the evaluator's similarity vector is exactly the diagonal (row `i`
of `a` against row `i` of `b`). -/
theorem cosine_sim_pairwise_and_diagonal :
    (∀ (m n k : ℕ) (a : Fin m → Fin k → ℝ) (b : Fin n → Fin k → ℝ) (i : Fin m) (j : Fin n),
      cosine_sim a b i j =
        (∑ l, a i l * b j l) /
          (Real.sqrt (∑ l, a i l ^ 2) * Real.sqrt (∑ l, b j l ^ 2))) ∧
    (∀ (m k : ℕ) (v₁ v₂ : Fin m → Fin k → ℝ) (i : Fin m),
      similarities v₁ v₂ i = cosine_sim v₁ v₂ i i) := by
  constructor
  · intro m n k a b i j
    simp only [cosine_sim, pow_two]
  · intro m k v₁ v₂ i
    rfl

/-- Claim C8: each training batch performs, in order, clear-gradients, forward
under autocast, loss scaling, backward, the scaler-mediated optimizer step
(which may internally skip on overflow), scaler update, and then exactly one
learning-rate scheduler step; over a loader the scheduler is advanced once per
batch regardless of which optimizer steps were skipped. -/
theorem mixed_precision_step_order :
    (∀ skipped : Bool, batchOps skipped =
      [StepOp.zeroGrad, StepOp.forwardAutocast, StepOp.scaleLoss, StepOp.backward,
        StepOp.scalerStep skipped, StepOp.scalerUpdate, StepOp.schedulerStep]) ∧
    (∀ skipped : Bool, (batchOps skipped).count StepOp.schedulerStep = 1) ∧
    (∀ skips : List Bool, (loaderOps skips).count StepOp.schedulerStep = skips.length) := by
  refine ⟨fun _ => rfl, fun skipped => by cases skipped <;> rfl, fun skips => ?_⟩
  induction skips with
  | nil => rfl
  | cons b rest ih =>
    have hb : (batchOps b).count StepOp.schedulerStep = 1 := by cases b <;> rfl
    simp only [loaderOps, List.flatMap_cons, List.count_append, List.length_cons] at *
    omega

/-- Claim C10: the reported average validation loss is the total divided by
the validation batch count plus 1e-6, hence strictly below the exact mean for
any positive total, while the average train loss is the exact total divided by
the train batch count. -/
theorem loss_average_formulas :
    (∀ (total : ℚ) (n : ℕ), avgValLoss total n = total / ((n : ℚ) + 1 / 1000000)) ∧
    (∀ (total : ℚ) (n : ℕ), avgTrainLoss total n = total / (n : ℚ)) ∧
    (∀ (total : ℚ) (n : ℕ), 0 < total → 0 < n → avgValLoss total n < total / (n : ℚ)) := by
  refine ⟨fun _ _ => rfl, fun _ _ => rfl, fun total n htot hn => ?_⟩
  have hn' : (0 : ℚ) < (n : ℚ) := by exact_mod_cast hn
  have hlt : (n : ℚ) < (n : ℚ) + 1 / 1000000 := by linarith
  exact div_lt_div_of_pos_left htot hn' hlt

/-- Witness for claim C10 at total = 1, n = 2. -/
theorem loss_average_formulas_witness : avgValLoss 1 2 < 1 / ((2 : ℕ) : ℚ) :=
  loss_average_formulas.2.2 1 2 (by norm_num) (by norm_num)

/-- Claim C2 counterexample: with warmup_steps = 5 > 3 = total_steps, building
the schedule does not fail — `setup_scheduler` merely delegates to the library
schedule constructor, which performs no validation. -/
theorem setup_scheduler_no_error_counterexample :
    5 > 3 ∧ setup_scheduler 5 3 = Except.ok (linearWarmupLambda 5 3) :=
  ⟨by norm_num, rfl⟩

/-- Claim C2 amended: building the schedule never raises a configuration
error, even when warmup_steps > total_steps; the schedule is returned
normally. -/
theorem setup_scheduler_never_fails :
    ∀ warmup total : ℕ, warmup > total →
      setup_scheduler warmup total = Except.ok (linearWarmupLambda warmup total) :=
  fun _ _ _ => rfl

/-- Witness for the amended claim C2 at warmup = 5, total = 3. -/
theorem setup_scheduler_never_fails_witness :
    setup_scheduler 5 3 = Except.ok (linearWarmupLambda 5 3) :=
  setup_scheduler_never_fails 5 3 (by norm_num)

/-- Claim C3 counterexample: when the worker body (which runs the training
loop) raises, `train_worker` propagates the exception without calling
`destroy_process_group` — there is no `finally` — so teardown is *not*
unconditional. -/
theorem destroy_group_counterexample :
    WorkerEvent.destroyProcessGroup ∉ (train_worker (Except.error "CUDA error")).1 ∧
      (train_worker (Except.error "CUDA error")).2 = some "CUDA error" :=
  ⟨by decide, rfl⟩

theorem scoresOfEvals_append (l₁ l₂ : List Event) :
    scoresOfEvals (l₁ ++ l₂) = scoresOfEvals l₁ ++ scoresOfEvals l₂ :=
  List.filterMap_append l₁ l₂ _

theorem scoresOfSaves_append (l₁ l₂ : List Event) :
    scoresOfSaves (l₁ ++ l₂) = scoresOfSaves l₁ ++ scoresOfSaves l₂ :=
  List.filterMap_append l₁ l₂ _

theorem mem_trainLossLogs {g : Bool} {d : String} {st n : Nat} {e : Event}
    (h : e ∈ trainLossLogs g d st n) : ∃ k, e = Event.logTrainLoss d k := by
  induction n generalizing st with
  | zero => simp [trainLossLogs] at h
  | succ m ih =>
    simp only [trainLossLogs, List.mem_append] at h
    rcases h with h | h
    · cases g with
      | false => simp at h
      | true => simp at h; exact ⟨st + 1, h⟩
    · exact ih h

theorem scoresOfEvals_trainLossLogs (g : Bool) (d : String) (st n : Nat) :
    scoresOfEvals (trainLossLogs g d st n) = [] := by
  rw [scoresOfEvals, List.filterMap_eq_nil_iff]
  intro e he
  obtain ⟨k, rfl⟩ := mem_trainLossLogs he
  rfl

theorem scoresOfSaves_trainLossLogs (g : Bool) (d : String) (st n : Nat) :
    scoresOfSaves (trainLossLogs g d st n) = [] := by
  rw [scoresOfSaves, List.filterMap_eq_nil_iff]
  intro e he
  obtain ⟨k, rfl⟩ := mem_trainLossLogs he
  rfl

theorem lastBest_snoc (b : Option ℚ) (l : List ℚ) (q : ℚ) :
    lastBest b (l ++ [q]) = if ltBest (lastBest b l) q then some q else lastBest b l := by
  induction l generalizing b with
  | nil => rfl
  | cons p rest ih =>
    simp only [List.cons_append, List.append_eq, lastBest]
    exact ih _

theorem recordBreakers_snoc (b : Option ℚ) (l : List ℚ) (q : ℚ) :
    recordBreakers b (l ++ [q]) =
      recordBreakers b l ++ (if ltBest (lastBest b l) q then [q] else []) := by
  induction l generalizing b with
  | nil => by_cases h : ltBest b q <;> simp [recordBreakers, lastBest, h]
  | cons p rest ih =>
    simp only [List.cons_append, List.append_eq, recordBreakers, lastBest]
    by_cases h : ltBest b p = true
    · simp [h, ih]
    · simp [h, ih]

theorem leBest_if_step (x : Option ℚ) (q : ℚ) :
    leBest x (if ltBest x q then some q else x) := by
  cases x with
  | none => by_cases h : ltBest none q <;> simp [h, leBest]
  | some b =>
    by_cases h : ltBest (some b) q
    · simp only [h, if_true, leBest]
      have : b < q := by simpa [ltBest] using h
      exact le_of_lt this
    · simp only [h, if_false, Bool.false_eq_true, ite_false, leBest, le_refl]

theorem leBest_lastBest_snoc (l : List ℚ) (q : ℚ) :
    leBest (lastBest none l) (lastBest none (l ++ [q])) := by
  rw [lastBest_snoc]
  exact leBest_if_step _ q

theorem tie_no_write (q : ℚ) : recordBreakers (some q) [q] = [] := by
  simp [recordBreakers, ltBest]

theorem filter_trainLossLogs_eq_nil (p : Event → Bool)
    (hp : ∀ d k, p (Event.logTrainLoss d k) = false) (g : Bool) (d : String) (st n : Nat) :
    (trainLossLogs g d st n).filter p = [] := by
  rw [List.filter_eq_nil_iff]
  intro e he
  obtain ⟨k, rfl⟩ := mem_trainLossLogs he
  simp [hp]

theorem selInv_initState : SelInv initState :=
  ⟨rfl, rfl⟩

theorem selInv_of_extend (s s' : LoopState) (Δ : List Event)
    (hev : s'.events = s.events ++ Δ) (hb : s'.best = s.best)
    (h₁ : scoresOfEvals Δ = []) (h₂ : scoresOfSaves Δ = [])
    (hs : SelInv s) : SelInv s' := by
  unfold SelInv at *
  rw [hev, hb, scoresOfEvals_append, scoresOfSaves_append, h₁, h₂, List.append_nil,
    List.append_nil]
  exact hs

theorem selInv_batchLoop (env : TrainEnv) (d : String) (n : Nat) (s : LoopState)
    (hs : SelInv s) : SelInv (batchLoop env d n s) :=
  selInv_of_extend s _ _ rfl rfl (scoresOfEvals_trainLossLogs _ _ _ _)
    (scoresOfSaves_trainLossLogs _ _ _ _) hs

theorem scoresOfEvals_triple (d : String) (q : ℚ) (st : Nat) :
    scoresOfEvals [Event.evalDone d q, Event.logPearson d st, Event.logSpearman d st] = [q] :=
  rfl

theorem scoresOfSaves_triple (d : String) (q : ℚ) (st : Nat) :
    scoresOfSaves [Event.evalDone d q, Event.logPearson d st, Event.logSpearman d st] = [] :=
  rfl

theorem scoresOfEvals_single_save (q : ℚ) : scoresOfEvals [Event.saveModel q] = [] :=
  rfl

theorem scoresOfSaves_single_save (q : ℚ) : scoresOfSaves [Event.saveModel q] = [q] :=
  rfl

theorem selInv_evalAndCheckpoint (env : TrainEnv) (d : String) (s : LoopState)
    (hs : SelInv s) : SelInv (evalAndCheckpoint env d s) := by
  obtain ⟨hsave, hbest⟩ := hs
  unfold evalAndCheckpoint
  by_cases hg : (env.hasWriter && env.rank == 0) = true
  · rw [if_pos hg]
    dsimp only
    by_cases hlt :
        ltBest s.best (((env.evalScores s.evalCount).1 + (env.evalScores s.evalCount).2) / 2) =
          true
    · rw [if_pos hlt]
      unfold SelInv
      dsimp only
      refine ⟨?_, ?_⟩
      · rw [scoresOfSaves_append, scoresOfSaves_append, scoresOfSaves_triple,
          scoresOfSaves_single_save, scoresOfEvals_append, scoresOfEvals_append,
          scoresOfEvals_triple, scoresOfEvals_single_save]
        simp only [List.append_nil]
        rw [recordBreakers_snoc, ← hbest]
        simp [hlt, hsave]
      · rw [scoresOfEvals_append, scoresOfEvals_append, scoresOfEvals_triple,
          scoresOfEvals_single_save]
        simp only [List.append_nil]
        rw [lastBest_snoc, ← hbest]
        simp [hlt]
    · rw [if_neg hlt]
      unfold SelInv
      dsimp only
      refine ⟨?_, ?_⟩
      · rw [scoresOfSaves_append, scoresOfSaves_triple, scoresOfEvals_append,
          scoresOfEvals_triple]
        simp only [List.append_nil]
        rw [recordBreakers_snoc, ← hbest]
        simp [hlt, hsave]
      · rw [scoresOfEvals_append, scoresOfEvals_triple]
        rw [lastBest_snoc, ← hbest]
        simp [hlt]
  · rw [if_neg hg]
    exact ⟨hsave, hbest⟩

theorem trainLossLogs_false (d : String) (st n : Nat) :
    trainLossLogs false d st n = [] := by
  induction n generalizing st with
  | zero => rfl
  | succ m ih => simp [trainLossLogs, ih]

theorem scoresOfEvals_noval (d : String) : scoresOfEvals [Event.printNoVal d] = [] :=
  rfl

theorem scoresOfSaves_noval (d : String) : scoresOfSaves [Event.printNoVal d] = [] :=
  rfl

theorem processDataset_ok_shape (env : TrainEnv) (d : String) (s s' : LoopState)
    (h : processDataset env d s = Except.ok s') :
    ∃ splits n Δ,
      List.lookup d env.dataLoaders = some splits ∧
      List.lookup "train" splits = some n ∧ 0 < n ∧
      s' = evalAndCheckpoint env d
        { s with globalStep := s.globalStep + n, events := s.events ++ Δ } ∧
      scoresOfEvals Δ = [] ∧ scoresOfSaves Δ = [] ∧
      ((env.hasWriter && env.rank == 0) = false → Δ = []) := by
  cases hd : List.lookup d env.dataLoaders with
  | none => simp [processDataset, hd] at h
  | some splits =>
    cases ht : List.lookup "train" splits with
    | none => simp [processDataset, hd, ht] at h
    | some n =>
      by_cases hn : n = 0
      · subst hn
        simp [processDataset, hd, ht] at h
      · have hn0 : (n == 0) = false := by simp [hn]
        rcases hv : (splits.map Prod.fst).filter hasValidationKey with _ | ⟨k, ks⟩
        · by_cases hw : (env.hasWriter && env.rank == 0) = true
          · simp only [processDataset, hd, ht, hv, hn0, Bool.false_eq_true, if_false,
              ite_false, hw, if_true, ite_true, Except.ok.injEq] at h
            refine ⟨splits, n,
              trainLossLogs (env.hasWriter && env.rank == 0) d s.globalStep n ++
                [Event.printNoVal d], rfl, ht, Nat.pos_of_ne_zero hn, ?_, ?_, ?_, ?_⟩
            · rw [← h]
              congr 1
              simp [batchLoop, List.append_assoc]
            · rw [scoresOfEvals_append, scoresOfEvals_trainLossLogs, scoresOfEvals_noval]
              rfl
            · rw [scoresOfSaves_append, scoresOfSaves_trainLossLogs, scoresOfSaves_noval]
              rfl
            · intro hg
              rw [hw] at hg
              cases hg
          · have hw' : (env.hasWriter && env.rank == 0) = false := by
              simpa using hw
            simp only [processDataset, hd, ht, hv, hn0, Bool.false_eq_true, if_false,
              ite_false, hw', Except.ok.injEq] at h
            refine ⟨splits, n,
              trainLossLogs (env.hasWriter && env.rank == 0) d s.globalStep n, rfl, ht,
              Nat.pos_of_ne_zero hn, ?_, ?_, ?_, ?_⟩
            · rw [← h]
              rfl
            · rw [scoresOfEvals_trainLossLogs]
            · rw [scoresOfSaves_trainLossLogs]
            · intro hg
              rw [hg, trainLossLogs_false]
        · by_cases hw : (env.hasWriter && env.rank == 0) = true
          · simp only [processDataset, hd, ht, hv, hn0, Bool.false_eq_true, if_false,
              ite_false, hw, if_true, ite_true, Except.ok.injEq] at h
            refine ⟨splits, n,
              trainLossLogs (env.hasWriter && env.rank == 0) d s.globalStep n ++
                [Event.printTrainVal d, Event.logValLoss d (s.globalStep + n)], rfl, ht,
              Nat.pos_of_ne_zero hn, ?_, ?_, ?_, ?_⟩
            · rw [← h]
              congr 1
              simp [batchLoop, List.append_assoc]
            · rw [scoresOfEvals_append, scoresOfEvals_trainLossLogs]
              rfl
            · rw [scoresOfSaves_append, scoresOfSaves_trainLossLogs]
              rfl
            · intro hg
              rw [hw] at hg
              cases hg
          · have hw' : (env.hasWriter && env.rank == 0) = false := by
              simpa using hw
            simp only [processDataset, hd, ht, hv, hn0, Bool.false_eq_true, if_false,
              ite_false, hw', Except.ok.injEq] at h
            refine ⟨splits, n,
              trainLossLogs (env.hasWriter && env.rank == 0) d s.globalStep n, rfl, ht,
              Nat.pos_of_ne_zero hn, ?_, ?_, ?_, ?_⟩
            · rw [← h]
              rfl
            · rw [scoresOfEvals_trainLossLogs]
            · rw [scoresOfSaves_trainLossLogs]
            · intro hg
              rw [hg, trainLossLogs_false]

theorem evalAndCheckpoint_globalStep (env : TrainEnv) (d : String) (s : LoopState) :
    (evalAndCheckpoint env d s).globalStep = s.globalStep := by
  unfold evalAndCheckpoint
  by_cases hg : (env.hasWriter && env.rank == 0) = true
  · rw [if_pos hg]
    dsimp only
    by_cases hlt :
        ltBest s.best (((env.evalScores s.evalCount).1 + (env.evalScores s.evalCount).2) / 2) =
          true
    · rw [if_pos hlt]
    · rw [if_neg hlt]
  · rw [if_neg hg]

theorem evalAndCheckpoint_gate_false (env : TrainEnv) (d : String) (s : LoopState)
    (hg : (env.hasWriter && env.rank == 0) = false) : evalAndCheckpoint env d s = s := by
  unfold evalAndCheckpoint
  rw [hg]
  rfl

theorem processDataset_ok_selInv (env : TrainEnv) (d : String) (s s' : LoopState)
    (h : processDataset env d s = Except.ok s') (hs : SelInv s) : SelInv s' := by
  obtain ⟨splits, n, Δ, _, _, _, hs', hΔe, hΔs, _⟩ := processDataset_ok_shape env d s s' h
  rw [hs']
  exact selInv_evalAndCheckpoint _ _ _ (selInv_of_extend s _ Δ rfl rfl hΔe hΔs hs)

theorem processDataset_ok_events_rank (env : TrainEnv) (d : String) (s s' : LoopState)
    (hr : env.rank ≠ 0) (h : processDataset env d s = Except.ok s') :
    s'.events = s.events := by
  obtain ⟨splits, n, Δ, _, _, _, hs', _, _, hgΔ⟩ := processDataset_ok_shape env d s s' h
  have hg : (env.hasWriter && env.rank == 0) = false := by
    have hr0 : (env.rank == 0) = false := by
      simpa using hr
    simp [hr0]
  rw [hs', evalAndCheckpoint_gate_false env d _ hg]
  dsimp only
  rw [hgΔ hg, List.append_nil]

theorem foldDatasets_ok_selInv (env : TrainEnv) (ds : List String) (s s' : LoopState)
    (h : foldDatasets env ds s = Except.ok s') (hs : SelInv s) : SelInv s' := by
  induction ds generalizing s with
  | nil =>
    simp only [foldDatasets, Except.ok.injEq] at h
    rw [← h]
    exact hs
  | cons d rest ih =>
    cases hp : processDataset env d s with
    | error e => rw [foldDatasets, hp] at h; cases h
    | ok smid =>
      rw [foldDatasets, hp] at h
      exact ih smid h (processDataset_ok_selInv env d s smid hp hs)

theorem foldDatasets_ok_events_rank (env : TrainEnv) (ds : List String) (s s' : LoopState)
    (hr : env.rank ≠ 0) (h : foldDatasets env ds s = Except.ok s') :
    s'.events = s.events := by
  induction ds generalizing s with
  | nil =>
    simp only [foldDatasets, Except.ok.injEq] at h
    rw [← h]
  | cons d rest ih =>
    cases hp : processDataset env d s with
    | error e => rw [foldDatasets, hp] at h; cases h
    | ok smid =>
      rw [foldDatasets, hp] at h
      rw [ih smid h, processDataset_ok_events_rank env d s smid hr hp]

theorem runEpoch_ok_selInv (env : TrainEnv) (epoch : Nat) (s s' : LoopState)
    (h : runEpoch env epoch s = Except.ok s') (hs : SelInv s) : SelInv s' := by
  unfold runEpoch at h
  dsimp only at h
  cases hf : foldDatasets env env.trainDatasets
      (if env.rank == 0 then { s with events := s.events ++ [Event.printEpoch epoch] }
        else s) with
  | error e => rw [hf] at h; cases h
  | ok smid =>
    rw [hf] at h
    simp only [Except.map, Except.ok.injEq] at h
    have hs0 : SelInv (if env.rank == 0 then
        { s with events := s.events ++ [Event.printEpoch epoch] } else s) := by
      by_cases hr0 : (env.rank == 0) = true
      · rw [if_pos hr0]
        exact selInv_of_extend s _ _ rfl rfl rfl rfl hs
      · rw [if_neg hr0]
        exact hs
    have hmid := foldDatasets_ok_selInv env env.trainDatasets _ smid hf hs0
    rw [← h]
    by_cases hr0 : (env.rank == 0) = true
    · rw [if_pos hr0]
      exact selInv_of_extend smid _ _ rfl rfl rfl rfl hmid
    · rw [if_neg hr0]
      exact hmid

theorem runEpoch_ok_events_rank (env : TrainEnv) (epoch : Nat) (s s' : LoopState)
    (hr : env.rank ≠ 0) (h : runEpoch env epoch s = Except.ok s') :
    s'.events = s.events := by
  have hr0 : (env.rank == 0) = false := by simpa using hr
  unfold runEpoch at h
  dsimp only at h
  rw [hr0] at h
  simp only [Bool.false_eq_true, if_false, ite_false] at h
  cases hf : foldDatasets env env.trainDatasets s with
  | error e => rw [hf] at h; cases h
  | ok smid =>
    rw [hf] at h
    simp only [Except.map, Except.ok.injEq] at h
    rw [← h]
    exact foldDatasets_ok_events_rank env env.trainDatasets s smid hr hf

theorem runEpochs_ok_selInv (env : TrainEnv) (e r : Nat) (s s' : LoopState)
    (h : runEpochs env e r s = Except.ok s') (hs : SelInv s) : SelInv s' := by
  induction r generalizing e s with
  | zero =>
    simp only [runEpochs, Except.ok.injEq] at h
    rw [← h]
    exact hs
  | succ m ih =>
    cases hp : runEpoch env e s with
    | error err => rw [runEpochs, hp] at h; cases h
    | ok smid =>
      rw [runEpochs, hp] at h
      exact ih (e + 1) smid h (runEpoch_ok_selInv env e s smid hp hs)

theorem runEpochs_ok_events_rank (env : TrainEnv) (e r : Nat) (s s' : LoopState)
    (hr : env.rank ≠ 0) (h : runEpochs env e r s = Except.ok s') :
    s'.events = s.events := by
  induction r generalizing e s with
  | zero =>
    simp only [runEpochs, Except.ok.injEq] at h
    rw [← h]
  | succ m ih =>
    cases hp : runEpoch env e s with
    | error err => rw [runEpochs, hp] at h; cases h
    | ok smid =>
      rw [runEpochs, hp] at h
      rw [ih (e + 1) smid h, runEpoch_ok_events_rank env e s smid hr hp]

theorem trainLoop_ok_runEpochs (env : TrainEnv) (s : LoopState)
    (h : trainLoop env = Except.ok s) :
    ∃ per, goTotalSteps env.dataLoaders env.trainDatasets = Except.ok per ∧
      runEpochs env 0 env.numEpochs initState = Except.ok s := by
  unfold trainLoop plannerTotalSteps setup_scheduler at h
  cases hg : goTotalSteps env.dataLoaders env.trainDatasets with
  | error e => rw [hg] at h; cases h
  | ok per =>
    rw [hg] at h
    exact ⟨per, rfl, h⟩

theorem processDataset_ok_globalStep (env : TrainEnv) (d : String) (s s' : LoopState)
    (h : processDataset env d s = Except.ok s') :
    ∃ splits n,
      List.lookup d env.dataLoaders = some splits ∧
      List.lookup "train" splits = some n ∧ 0 < n ∧
      s'.globalStep = s.globalStep + n := by
  obtain ⟨splits, n, Δ, hd, ht, hn, hs', _, _, _⟩ := processDataset_ok_shape env d s s' h
  exact ⟨splits, n, hd, ht, hn, by rw [hs', evalAndCheckpoint_globalStep]⟩

theorem foldDatasets_ok_steps (env : TrainEnv) (ds : List String) (s s' : LoopState)
    (h : foldDatasets env ds s = Except.ok s') :
    ∃ t, goTotalSteps env.dataLoaders ds = Except.ok t ∧
      s'.globalStep = s.globalStep + t := by
  induction ds generalizing s with
  | nil =>
    simp only [foldDatasets, Except.ok.injEq] at h
    exact ⟨0, rfl, by rw [← h, Nat.add_zero]⟩
  | cons d rest ih =>
    cases hp : processDataset env d s with
    | error e => rw [foldDatasets, hp] at h; cases h
    | ok smid =>
      rw [foldDatasets, hp] at h
      obtain ⟨splits, n, hd, ht, _, hstep⟩ := processDataset_ok_globalStep env d s smid hp
      obtain ⟨t, hgo, hstep'⟩ := ih smid h
      refine ⟨n + t, ?_, ?_⟩
      · rw [goTotalSteps, hd, hgo]
        simp only [Except.map, ht]
      · rw [hstep', hstep]
        omega

theorem runEpoch_ok_steps (env : TrainEnv) (epoch : Nat) (s s' : LoopState)
    (h : runEpoch env epoch s = Except.ok s') :
    ∃ t, goTotalSteps env.dataLoaders env.trainDatasets = Except.ok t ∧
      s'.globalStep = s.globalStep + t := by
  unfold runEpoch at h
  dsimp only at h
  cases hf : foldDatasets env env.trainDatasets
      (if (env.rank == 0) = true then
        { s with events := s.events ++ [Event.printEpoch epoch] } else s) with
  | error e => rw [hf] at h; cases h
  | ok smid =>
    rw [hf] at h
    simp only [Except.map, Except.ok.injEq] at h
    obtain ⟨t, hgo, hstep⟩ := foldDatasets_ok_steps env env.trainDatasets _ smid hf
    refine ⟨t, hgo, ?_⟩
    have hmid : s'.globalStep = smid.globalStep := by
      rw [← h]
      by_cases hr0 : (env.rank == 0) = true
      · rw [if_pos hr0]
      · rw [if_neg hr0]
    have hs0 : (if (env.rank == 0) = true then
        { s with events := s.events ++ [Event.printEpoch epoch] } else s).globalStep =
          s.globalStep := by
      by_cases hr0 : (env.rank == 0) = true
      · rw [if_pos hr0]
      · rw [if_neg hr0]
    rw [hmid, hstep, hs0]

theorem runEpochs_ok_steps (env : TrainEnv) (t : Nat)
    (hgo : goTotalSteps env.dataLoaders env.trainDatasets = Except.ok t) :
    ∀ (r e : Nat) (s s' : LoopState), runEpochs env e r s = Except.ok s' →
      s'.globalStep = s.globalStep + r * t := by
  intro r
  induction r with
  | zero =>
    intro e s s' h
    simp only [runEpochs, Except.ok.injEq] at h
    rw [← h]
    omega
  | succ m ih =>
    intro e s s' h
    cases hp : runEpoch env e s with
    | error err => rw [runEpochs, hp] at h; cases h
    | ok smid =>
      rw [runEpochs, hp] at h
      obtain ⟨t', hgo', hstep⟩ := runEpoch_ok_steps env e s smid hp
      rw [hgo] at hgo'
      cases hgo'
      have := ih (e + 1) smid s' h
      rw [this, hstep]
      ring

/-- Claim C4: in any completed run of the training loop the global step
counter starts at 0, increases by exactly one per training batch (the batch
loop over `n` batches adds exactly `n`), and finally equals
`num_epochs * total_steps_per_epoch` — the sum, over training datasets
possessing a train split, of their train-loader lengths — which is exactly the
`total_steps` handed to `setup_scheduler`. -/
theorem global_step_budget (env : TrainEnv) (s : LoopState)
    (h : trainLoop env = Except.ok s) :
    initState.globalStep = 0 ∧
    (∀ (d : String) (n : Nat) (s₀ : LoopState),
      (batchLoop env d n s₀).globalStep = s₀.globalStep + n) ∧
    ∃ per, goTotalSteps env.dataLoaders env.trainDatasets = Except.ok per ∧
      s.globalStep = env.numEpochs * per ∧
      plannerTotalSteps env = Except.ok s.globalStep := by
  obtain ⟨per, hgo, hrun⟩ := trainLoop_ok_runEpochs env s h
  have hstep := runEpochs_ok_steps env per hgo env.numEpochs 0 initState s hrun
  simp only [initState, Nat.zero_add] at hstep
  refine ⟨rfl, fun _ _ _ => rfl, per, hgo, hstep, ?_⟩
  unfold plannerTotalSteps
  rw [hgo]
  simp only [Except.map]
  rw [hstep, Nat.mul_comm]

/-- Witness for claim C4: the two-epoch run `cEnvA` over one dataset with a
2-batch train loader ends at global step 4 = 2 × 2, the planner's budget. -/
theorem global_step_budget_witness :
    cStateA.globalStep = cEnvA.numEpochs * 2 ∧
      plannerTotalSteps cEnvA = Except.ok cStateA.globalStep := by
  have hrun : trainLoop cEnvA = Except.ok cStateA := by
    have h1 : hasValidationKey "train" = false := rfl
    have h3 : hasValidationKey "validation" = true := rfl
    norm_num [trainLoop, plannerTotalSteps, goTotalSteps, setup_scheduler, runEpochs,
      runEpoch, foldDatasets, processDataset, batchLoop, trainLossLogs, evalAndCheckpoint,
      initState, ltBest, h1, h3, List.filter, Except.map, Except.bind, Except.pure, cEnvA,
      cStateA]
  obtain ⟨per, hgo, h1, h2⟩ := (global_step_budget cEnvA cStateA hrun).2.2
  have hgo2 : goTotalSteps cEnvA.dataLoaders cEnvA.trainDatasets = Except.ok 2 := rfl
  rw [hgo2] at hgo
  injection hgo with hper
  subst hper
  exact ⟨h1, h2⟩

/-- Claim C5: in any completed run, the best-score tracker starts at negative
infinity (encoded `none`), always equals the running best of the combined
scores seen so far, the checkpoint writes are exactly the scores strictly
exceeding every earlier score (so the first comparison against negative
infinity always writes and a tie never does), and one more checkpointing
decision can only move the tracker up. -/
theorem checkpoint_selector_monotone (env : TrainEnv) (s : LoopState)
    (h : trainLoop env = Except.ok s) :
    initState.best = none ∧
    s.best = lastBest none (scoresOfEvals s.events) ∧
    scoresOfSaves s.events = recordBreakers none (scoresOfEvals s.events) ∧
    (∀ (l : List ℚ) (q : ℚ), leBest (lastBest none l) (lastBest none (l ++ [q]))) ∧
    (∀ q : ℚ, recordBreakers (some q) [q] = []) := by
  obtain ⟨per, hgo, hrun⟩ := trainLoop_ok_runEpochs env s h
  have hinv := runEpochs_ok_selInv env 0 env.numEpochs initState s hrun selInv_initState
  exact ⟨rfl, hinv.2, hinv.1, leBest_lastBest_snoc, tie_no_write⟩

/-- Witness for claim C5 on the concrete run `cEnvA`. -/
theorem checkpoint_selector_monotone_witness :
    cStateA.best = lastBest none (scoresOfEvals cStateA.events) ∧
      scoresOfSaves cStateA.events = recordBreakers none (scoresOfEvals cStateA.events) := by
  have hrun : trainLoop cEnvA = Except.ok cStateA := by
    have h1 : hasValidationKey "train" = false := rfl
    have h3 : hasValidationKey "validation" = true := rfl
    norm_num [trainLoop, plannerTotalSteps, goTotalSteps, setup_scheduler, runEpochs,
      runEpoch, foldDatasets, processDataset, batchLoop, trainLossLogs, evalAndCheckpoint,
      initState, ltBest, h1, h3, List.filter, Except.map, Except.bind, Except.pure, cEnvA,
      cStateA]
  have h := checkpoint_selector_monotone cEnvA cStateA hrun
  exact ⟨h.2.1, h.2.2.1⟩

/-- Claim C7: in any completed run on a process whose rank is not 0, the
training loop emits no side effects at all — no prints, no metric writes, no
similarity evaluation, no checkpoint writes. -/
theorem rank_gated_side_effects (env : TrainEnv) (s : LoopState)
    (hr : env.rank ≠ 0) (h : trainLoop env = Except.ok s) : s.events = [] := by
  obtain ⟨per, hgo, hrun⟩ := trainLoop_ok_runEpochs env s h
  have hev := runEpochs_ok_events_rank env 0 env.numEpochs initState s hr hrun
  simpa [initState] using hev

/-- Witness for claim C7: the run `cEnvB` on rank 1 emits nothing. -/
theorem rank_gated_side_effects_witness : cStateB.events = [] :=
  rank_gated_side_effects cEnvB cStateB (by decide) (by rfl)

theorem foldDatasets_ok_all (env : TrainEnv) (ds : List String) (s s' : LoopState)
    (h : foldDatasets env ds s = Except.ok s') :
    ∀ d ∈ ds, ∃ splits n,
      List.lookup d env.dataLoaders = some splits ∧
      List.lookup "train" splits = some n ∧ 0 < n := by
  induction ds generalizing s with
  | nil =>
    intro d hd
    cases hd
  | cons d0 rest ih =>
    cases hp : processDataset env d0 s with
    | error e => rw [foldDatasets, hp] at h; cases h
    | ok smid =>
      rw [foldDatasets, hp] at h
      intro d hd
      rcases List.mem_cons.mp hd with rfl | hmem
      · obtain ⟨splits, n, hd', ht', hn, _⟩ := processDataset_ok_globalStep env d s smid hp
        exact ⟨splits, n, hd', ht', hn⟩
      · exact ih smid h d hmem

/-- Claim C9: a listed training dataset without a `"train"` split makes the
dataset loop raise a lookup error even though the total-step computation
skips it, a train loader with zero batches makes the loop raise a
division-by-zero error, and a completed run (with at least one epoch) implies
every listed dataset has a non-empty train split. -/
theorem train_split_required :
    (∀ (env : TrainEnv) (d : String) (s : LoopState) (splits : Splits),
      List.lookup d env.dataLoaders = some splits →
      List.lookup "train" splits = none →
      processDataset env d s = Except.error ("KeyError: train split of " ++ d) ∧
      ∀ rest, goTotalSteps env.dataLoaders (d :: rest) = goTotalSteps env.dataLoaders rest) ∧
    (∀ (env : TrainEnv) (d : String) (s : LoopState) (splits : Splits),
      List.lookup d env.dataLoaders = some splits →
      List.lookup "train" splits = some 0 →
      processDataset env d s = Except.error "ZeroDivisionError: float division by zero") ∧
    (∀ (env : TrainEnv) (s : LoopState), 0 < env.numEpochs →
      trainLoop env = Except.ok s →
      ∀ d ∈ env.trainDatasets, ∃ splits n,
        List.lookup d env.dataLoaders = some splits ∧
        List.lookup "train" splits = some n ∧ 0 < n) := by
  refine ⟨?_, ?_, ?_⟩
  · intro env d s splits hd ht
    constructor
    · simp [processDataset, hd, ht]
    · intro rest
      cases hgo : goTotalSteps env.dataLoaders rest with
      | error e => simp [goTotalSteps, hd, hgo, Except.map]
      | ok t => simp [goTotalSteps, hd, hgo, Except.map, ht]
  · intro env d s splits hd ht
    simp [processDataset, hd, ht]
  · intro env s hep h d hd
    obtain ⟨per, hgo, hrun⟩ := trainLoop_ok_runEpochs env s h
    obtain ⟨m, hm⟩ : ∃ m, env.numEpochs = m + 1 := ⟨env.numEpochs - 1, by omega⟩
    rw [hm] at hrun
    cases hp : runEpoch env 0 initState with
    | error e => rw [runEpochs, hp] at hrun; cases hrun
    | ok smid =>
      unfold runEpoch at hp
      dsimp only at hp
      cases hf : foldDatasets env env.trainDatasets
          (if (env.rank == 0) = true then
            { initState with events := initState.events ++ [Event.printEpoch 0] }
          else initState) with
      | error e => rw [hf] at hp; cases hp
      | ok smid2 => exact foldDatasets_ok_all env env.trainDatasets _ smid2 hf d hd

/-- Witness for claim C9 on the loaders of `w9Env`: the dataset `"noTrain"`
has no train split and fails with the lookup error; the dataset `"zeroTrain"`
has an empty train loader and fails with the division error. -/
theorem train_split_required_witness :
    processDataset w9Env "noTrain" initState =
        Except.error "KeyError: train split of noTrain" ∧
      processDataset w9Env "zeroTrain" initState =
        Except.error "ZeroDivisionError: float division by zero" := by
  constructor
  · exact (train_split_required.1 w9Env "noTrain" initState [("validation", 1)] rfl rfl).1
  · exact train_split_required.2.1 w9Env "zeroTrain" initState [("train", 0)] rfl rfl

/-- Claim C1 counterexample: in the run `c1Env`, the only dataset `"plain"`
has no validation-like split, yet the completed run performed one similarity
evaluation and one checkpoint write — the claim that no evaluation and no
checkpoint check happen for such a dataset-epoch is false. -/
theorem no_validation_still_evaluates_counterexample :
    List.lookup "plain" c1Env.dataLoaders = some [("train", 1), ("test", 3)] ∧
    (([("train", 1), ("test", 3)] : Splits).map Prod.fst).filter hasValidationKey = [] ∧
    trainLoop c1Env = Except.ok c1Full ∧
    (c1Full.events.filter isEvalEvent).length = 1 ∧
    (c1Full.events.filter isSaveEvent).length = 1 := by
  refine ⟨rfl, rfl, ?_, rfl, rfl⟩
  have h1 : hasValidationKey "train" = false := rfl
  have h2 : hasValidationKey "test" = false := rfl
  norm_num [trainLoop, plannerTotalSteps, goTotalSteps, setup_scheduler, runEpochs, runEpoch,
    foldDatasets, processDataset, batchLoop, trainLossLogs, evalAndCheckpoint, initState,
    ltBest, h1, h2, List.filter, Except.map, Except.bind, Except.pure, c1Env, c1Full]

/-- Claim C1 amended: a dataset-epoch whose dataset has no validation-like
split skips only the validation-loss computation and logging — it logs no
validation loss and prints the no-validation message instead of the
train/validation message — but the similarity evaluation (and with it the
checkpoint check) still runs exactly once on the writer-holding rank-0
process. -/
theorem no_validation_branch_amended (env : TrainEnv) (d : String) (s s' : LoopState)
    (splits : Splits)
    (hw : env.hasWriter = true) (hr : env.rank = 0)
    (hd : List.lookup d env.dataLoaders = some splits)
    (hv : (splits.map Prod.fst).filter hasValidationKey = [])
    (h : processDataset env d s = Except.ok s') :
    (eventsAdded s.events s'.events).filter isValLossEvent = [] ∧
    (eventsAdded s.events s'.events).filter isTrainValMsg = [] ∧
    ((eventsAdded s.events s'.events).filter isNoValMsg).length = 1 ∧
    ((eventsAdded s.events s'.events).filter isEvalEvent).length = 1 := by
  have hg : (env.hasWriter && env.rank == 0) = true := by simp [hw, hr]
  cases ht : List.lookup "train" splits with
  | none => simp [processDataset, hd, ht] at h
  | some n =>
    by_cases hn : n = 0
    · subst hn
      simp [processDataset, hd, ht] at h
    · have hn0 : (n == 0) = false := by simp [hn]
      simp only [processDataset, hd, ht, hv, hn0, Bool.false_eq_true, if_false, ite_false,
        hg, if_true, ite_true, Except.ok.injEq] at h
      rw [← h]
      unfold evalAndCheckpoint
      rw [if_pos hg]
      dsimp only [batchLoop]
      by_cases hlt : ltBest s.best
          (((env.evalScores s.evalCount).1 + (env.evalScores s.evalCount).2) / 2) = true
      · rw [if_pos hlt]
        dsimp only [eventsAdded]
        simp only [List.append_assoc, List.drop_left, List.filter_append,
          filter_trainLossLogs_eq_nil isValLossEvent (fun _ _ => rfl),
          filter_trainLossLogs_eq_nil isTrainValMsg (fun _ _ => rfl),
          filter_trainLossLogs_eq_nil isNoValMsg (fun _ _ => rfl),
          filter_trainLossLogs_eq_nil isEvalEvent (fun _ _ => rfl)]
        refine ⟨rfl, rfl, rfl, rfl⟩
      · rw [if_neg hlt]
        dsimp only [eventsAdded]
        simp only [List.append_assoc, List.drop_left, List.filter_append,
          filter_trainLossLogs_eq_nil isValLossEvent (fun _ _ => rfl),
          filter_trainLossLogs_eq_nil isTrainValMsg (fun _ _ => rfl),
          filter_trainLossLogs_eq_nil isNoValMsg (fun _ _ => rfl),
          filter_trainLossLogs_eq_nil isEvalEvent (fun _ _ => rfl)]
        refine ⟨rfl, rfl, rfl, rfl⟩

/-- Witness for the amended claim C1 on the dataset `"plain"` of `c1Env`. -/
theorem no_validation_branch_amended_witness :
    (eventsAdded initState.events c1State.events).filter isValLossEvent = [] ∧
    (eventsAdded initState.events c1State.events).filter isTrainValMsg = [] ∧
    ((eventsAdded initState.events c1State.events).filter isNoValMsg).length = 1 ∧
    ((eventsAdded initState.events c1State.events).filter isEvalEvent).length = 1 := by
  have hp : processDataset c1Env "plain" initState = Except.ok c1State := by
    have h1 : hasValidationKey "train" = false := rfl
    have h2 : hasValidationKey "test" = false := rfl
    norm_num [processDataset, batchLoop, trainLossLogs, evalAndCheckpoint, initState, ltBest,
      h1, h2, List.filter, c1Env, c1State]
  exact no_validation_branch_amended c1Env "plain" initState c1State
    [("train", 1), ("test", 3)] rfl rfl rfl rfl hp

/-- Claim C3 amended: the worker leaves the process group exactly when its
body (including the training loop) completes normally; on a failure path the
exception propagates and the group is never destroyed. -/
theorem destroy_group_iff_normal_completion :
    ∀ outcome : Except String Unit,
      (WorkerEvent.destroyProcessGroup ∈ (train_worker outcome).1 ↔
        outcome = Except.ok ()) ∧
      WorkerEvent.initProcessGroup ∈ (train_worker outcome).1 := by
  intro outcome
  cases outcome with
  | ok u => cases u; simp [train_worker]
  | error e => simp [train_worker]
